import Mathlib

/-!
Verification of the fashion-admin retail dashboard (TypeScript/React + Supabase
backend).  The client-side logic of the repository is embedded shallowly:

* page-level handlers become pure Lean functions over explicit state
  (lists standing for the backend tables and the local React state);
* TypeScript strings stay `String`, nullable values become `Option`,
  JS numbers in the measurement/stock paths are modelled as `Int`
  (the values flowing through those paths are integral or are only
  compared for equality/zero);
* each remote write that may fail takes the backend verdict as an
  explicit `Bool` parameter, so both the success and the failure
  branch of the source are captured.

Source files covered: `src/pages/Orders.tsx`, the revised Orders page and the
Logistics pages (unnamed files of the repository), `src/pages/Inventory.tsx`,
`src/pages/Stores.tsx`, `src/components/SizeManager.tsx`,
`src/lib/size-config.ts`, `src/context/AuthContext.tsx`.
-/

namespace FashionAdmin

/-! ## String helpers mirroring the JavaScript primitives used by the code -/

/-- JS `String.prototype.toLowerCase`, restricted to the ASCII data the
code compares (category tags, size names).  Implemented on the character
list so that concrete instances evaluate inside the kernel. -/
def jsToLower (s : String) : String :=
  ⟨s.data.map Char.toLower⟩

/-- Helper for `jsJoinSpace` on character lists. -/
def joinSpaceData : List (List Char) → List Char
  | [] => []
  | [x] => x
  | x :: rest => x ++ ' ' :: joinSpaceData rest

/-- JS `categories.join(" ")`. -/
def jsJoinSpace (l : List String) : String :=
  ⟨joinSpaceData (l.map String.data)⟩

/-- Substring test on character lists, the computational core of
JS `String.prototype.includes`. -/
def charSub : List Char → List Char → Bool
  | [], needle => needle.isEmpty
  | h :: t, needle => needle.isPrefixOf (h :: t) || charSub t needle

/-- JS `hay.includes(needle)`. -/
def jsIncludes (hay needle : String) : Bool :=
  charSub hay.data needle.data

/-- JS `String.prototype.trim`: drop whitespace from both ends. -/
def jsTrim (s : String) : String :=
  ⟨((s.data.dropWhile Char.isWhitespace).reverse.dropWhile Char.isWhitespace).reverse⟩

/-! ## `src/context/AuthContext.tsx` — role capability flags -/

/-- AuthContext: `isAdmin = profile?.role === "admin"`. -/
def isAdminFlag (role : String) : Bool :=
  role == "admin"

/-! ## `src/lib/size-config.ts` — category detection (claim C9) -/

/-- Embeds `detectProductCategory(categories)` from `size-config.ts`: join the
tags with a space, lowercase, then run an ordered chain of substring checks;
`"generic"` when nothing matches.  The `undefined`/empty guard of the source
is the `isEmpty` test (an absent array and an empty array behave alike). -/
def detectProductCategory (categories : List String) : String :=
  if categories.isEmpty then "generic" else
  let categoryLower := jsToLower (jsJoinSpace categories)
  if jsIncludes categoryLower "shirt" || jsIncludes categoryLower "top" ||
     jsIncludes categoryLower "tee" || jsIncludes categoryLower "blouse" then "shirts"
  else if jsIncludes categoryLower "pant" || jsIncludes categoryLower "jean" ||
     jsIncludes categoryLower "trouser" || jsIncludes categoryLower "legging" then "pants"
  else if jsIncludes categoryLower "shoe" || jsIncludes categoryLower "sneaker" then "shoes"
  else if jsIncludes categoryLower "belt" || jsIncludes categoryLower "accessory" then "belts"
  else if jsIncludes categoryLower "dress" || jsIncludes categoryLower "skirt" ||
     jsIncludes categoryLower "gown" then "dresses"
  else if jsIncludes categoryLower "jacket" || jsIncludes categoryLower "coat" ||
     jsIncludes categoryLower "blazer" then "jackets"
  else if jsIncludes categoryLower "perfume" || jsIncludes categoryLower "fragrance" ||
     jsIncludes categoryLower "cologne" || jsIncludes categoryLower "scent" then "perfumes"
  else "generic"

/-- The rule table of `detectProductCategory`, as data: keyword sets paired
with the category they trigger, in source order. -/
def categoryRuleTable : List (List String × String) :=
  [ (["shirt", "top", "tee", "blouse"], "shirts"),
    (["pant", "jean", "trouser", "legging"], "pants"),
    (["shoe", "sneaker"], "shoes"),
    (["belt", "accessory"], "belts"),
    (["dress", "skirt", "gown"], "dresses"),
    (["jacket", "coat", "blazer"], "jackets"),
    (["perfume", "fragrance", "cologne", "scent"], "perfumes") ]

/-- First-match-wins interpretation of a keyword rule table over the joined,
lowercased tag string, with the `"generic"` fallback. -/
def firstMatchCategory (s : String) : List (List String × String) → String
  | [] => "generic"
  | (kws, cat) :: rest =>
    if kws.any (fun kw => jsIncludes s kw) then cat else firstMatchCategory s rest

/-! ## Order records and the Orders-page actions (claim C1) -/

/-- An order as the order pages see it; presentation-only fields
(customer profile, addresses, items, timestamps) are omitted because no
status logic reads them. -/
structure OrderRec where
  id : String
  status : String
  fulfillment_type : String
deriving DecidableEq

/-- The action footer of `src/pages/Orders.tsx` (lines 150-161): one button
"Mark as Ready" writing status `ready` whenever the status is neither
`ready` nor `delivered`; a disabled (non-writing) button when `ready`;
nothing otherwise.  Returns the status the offered action would write. -/
def ordersLegacyAction (status : String) : Option String :=
  if status ≠ "ready" ∧ status ≠ "delivered" then some "ready" else none

/-- Embeds `renderActionButton` of the revised Orders page (unnamed source
file, second Orders implementation): the status its enabled button would
write via `updateStatus`, or `none` when no status-changing action is
offered (terminal statuses, the disabled "In Transit" button, and unknown
statuses). -/
def renderActionWrite (status fulfillmentType : String) : Option String :=
  if status = "pos_complete" ∨ status = "delivered" ∨ status = "collected" then none
  else if status = "paid" then some "packed"
  else if status = "packed" then
    (if fulfillmentType = "courier" then some "transit" else some "ready")
  else if status = "transit" then none
  else if status = "ready" then some "collected"
  else none

/-- Modelled from the spec: the transition table of spec section 4.3 on the
composite pair (status, fulfillment_type).  Used only to compare the code's
offered actions against the specified table. -/
def specTransition (status fulfillmentType : String) : Option String :=
  if status = "paid" then some "packed"
  else if status = "packed" ∧ fulfillmentType = "courier" then some "transit"
  else if status = "packed" ∧ fulfillmentType = "pickup" then some "ready"
  else if status = "transit" ∧ fulfillmentType = "courier" then some "delivered"
  else if status = "ready" ∧ fulfillmentType = "pickup" then some "collected"
  else none

/-! ## The Logistics run sheet (claims C2 and C6) -/

/-- The fetch of `loadLogistics` (revised Logistics page): rows of the orders
table restricted by `.neq("status", "pos_complete")` and
`.in("status", ["packed", "transit"])`.  The FIFO `created_at` ordering is
not modelled; the claims concern membership only. -/
def logisticsFetch (orders : List OrderRec) : List OrderRec :=
  orders.filter (fun o => o.status != "pos_complete" && (o.status == "packed" || o.status == "transit"))

/-- The strict client-side filtering of `loadLogistics`: courier orders only
while `transit`, pickup orders only while `packed`, everything else dropped. -/
def logisticsTaskFilter (t : OrderRec) : Bool :=
  if t.fulfillment_type == "courier" then t.status == "transit"
  else if t.fulfillment_type == "pickup" then t.status == "packed"
  else false

/-- Embeds `loadLogistics` of the revised Logistics page: the fetched rows
after the strict filtering become the visible driver task list. -/
def loadLogistics (orders : List OrderRec) : List OrderRec :=
  (logisticsFetch orders).filter logisticsTaskFilter

/-- Outcome of `handleCompleteTask`: final local task list, the writes issued
to the backend (order id, new status), and which toasts were raised. -/
structure CompleteTaskResult where
  tasks : List OrderRec
  writes : List (String × String)
  errorToast : Bool
  successToast : Bool
deriving DecidableEq

/-- New status chosen by `handleCompleteTask`: pickup orders are dropped at
the store (`ready`), everything else is delivered to the customer. -/
def newStatusFor (task : OrderRec) : String :=
  if task.fulfillment_type == "pickup" then "ready" else "delivered"

/-- Embeds `handleCompleteTask` of the revised Logistics page: snapshot the
current tasks, optimistically remove the task, issue exactly one status
write, and on a backend error restore the snapshot and raise an error toast
(the same revert runs in the `catch` branch for a thrown error). -/
def handleCompleteTask (tasks : List OrderRec) (task : OrderRec) (writeOk : Bool) :
    CompleteTaskResult :=
  let newStatus := newStatusFor task
  let previousTasks := tasks
  let optimistic := tasks.filter (fun t => t.id != task.id)
  if writeOk then
    { tasks := optimistic, writes := [(task.id, newStatus)],
      errorToast := false, successToast := true }
  else
    { tasks := previousTasks, writes := [(task.id, newStatus)],
      errorToast := true, successToast := false }

/-! ## Inventory rows and the stock-update path (claims C3, C4, C8) -/

/-- A row of the `inventory` table: composite-keyed by
(product_id, location_id, size_name). -/
structure InvRow where
  product_id : String
  location_id : String
  size_name : Option String
  quantity : Int
  price : Int
deriving DecidableEq

/-- Key match used by the delete and the upsert `onConflict` clause of
`handleUpdateStock`: equality on (product_id, location_id, size_name). -/
def sameInvKey (r : InvRow) (pid lid : String) (sz : Option String) : Bool :=
  r.product_id == pid && r.location_id == lid && r.size_name == sz

/-- The `inventory.delete().eq(product_id).eq(location_id).eq(size_name)`
call of `handleUpdateStock`. -/
def deleteInventory (table : List InvRow) (pid lid : String) (sz : Option String) :
    List InvRow :=
  table.filter (fun r => !(sameInvKey r pid lid sz))

/-- The `inventory.upsert(..., onConflict: "product_id,location_id,size_name")`
call of `handleUpdateStock`: replace the row with the matching key, or append
the new row when no key matches. -/
def upsertInventory (table : List InvRow) (row : InvRow) : List InvRow :=
  if table.any (fun r => sameInvKey r row.product_id row.location_id row.size_name) then
    table.map (fun r =>
      if sameInvKey r row.product_id row.location_id row.size_name then row else r)
  else
    table ++ [row]

/-- JS `stockForm.size_name || null`: the empty string means "no specific
size" and is stored as null. -/
def formSize (sizeName : String) : Option String :=
  if sizeName = "" then none else some sizeName

/-- Embeds the inventory mutation of `handleUpdateStock`
(`src/pages/Inventory.tsx`): the guard rejects a missing location; quantity
exactly 0 deletes the keyed row; any other quantity upserts it. -/
def handleUpdateStock (table : List InvRow) (pid lid sizeName : String) (qty price : Int) :
    List InvRow :=
  if lid = "" then table
  else if qty = 0 then deleteInventory table pid lid (formSize sizeName)
  else upsertInventory table
    { product_id := pid, location_id := lid, size_name := formSize sizeName,
      quantity := qty, price := price }

/-- Reading the inventory entries of one (product, location, size) triple. -/
def readInventory (table : List InvRow) (pid lid : String) (sz : Option String) :
    List InvRow :=
  table.filter (fun r => sameInvKey r pid lid sz)

/-- The `inventory.select("id").eq("product_id", ...)` re-check of
`handleUpdateStock`: all inventory rows of one product, across locations. -/
def productRowsFor (table : List InvRow) (pid : String) : List InvRow :=
  table.filter (fun r => r.product_id == pid)

/-- The archive check of `handleUpdateStock`: `shouldArchive` is "no
inventory rows remain"; the products-table flag is written only when it
differs from the UI snapshot, otherwise the stored flag stays. -/
def archiveCheck (table : List InvRow) (pid : String) (uiArchived storedArchived : Bool) :
    Bool :=
  let hasInventory := !(productRowsFor table pid).isEmpty
  let shouldArchive := !hasInventory
  if uiArchived ≠ shouldArchive then shouldArchive else storedArchived

/-- The whole stock-update path: inventory mutation followed by the archive
check (the check is skipped by the missing-location early return). -/
def handleUpdateStockArchived (table : List InvRow) (pid lid sizeName : String)
    (qty price : Int) (uiArchived storedArchived : Bool) : List InvRow × Bool :=
  if lid = "" then (table, storedArchived)
  else
    let table2 := handleUpdateStock table pid lid sizeName qty price
    (table2, archiveCheck table2 pid uiArchived storedArchived)

/-- The client-side location scoping applied to a product's inventory rows on
the Inventory page: admins see every row, anyone else only the rows of their
assigned location (`isAdmin || inv.location_id === profile?.assigned_location_id`). -/
def visibleInventoryRows (isAdmin : Bool) (assignedLocation : Option String)
    (rows : List InvRow) : List InvRow :=
  rows.filter (fun inv => isAdmin || some inv.location_id == assignedLocation)

/-! ## Product sizes: save/load round trip (claim C5) and SizeManager (C10) -/

/-- A `ProductSize` as the client holds it: a size name and the sparse
(nullable) measurement fields of `size-config.ts`. -/
structure ProductSize where
  size_name : String
  chest_cm : Option Int := none
  shoulder_width_cm : Option Int := none
  sleeve_length_cm : Option Int := none
  front_length_cm : Option Int := none
  back_length_cm : Option Int := none
  waist_cm : Option Int := none
  hip_cm : Option Int := none
  inseam_cm : Option Int := none
  thigh_width_cm : Option Int := none
  size_us : Option Int := none
  size_eu : Option Int := none
  foot_length_cm : Option Int := none
  foot_width_cm : Option Int := none
  belt_length_cm : Option Int := none
  belt_width_cm : Option Int := none
deriving DecidableEq

/-- A persisted `product_sizes` row: the owning product plus the size data. -/
structure SizeRow where
  product_id : String
  row : ProductSize
deriving DecidableEq

/-- JS `value || null` on a nullable number: null and undefined stay null,
and 0 is falsy, so it also becomes null. -/
def jsOrNull (v : Option Int) : Option Int :=
  match v with
  | some x => if x = 0 then none else some x
  | none => none

/-- The field-by-field `size.field || null` mapping `saveSizes` applies to
each size before inserting it. -/
def coerceSize (s : ProductSize) : ProductSize :=
  { size_name := s.size_name
    chest_cm := jsOrNull s.chest_cm
    shoulder_width_cm := jsOrNull s.shoulder_width_cm
    sleeve_length_cm := jsOrNull s.sleeve_length_cm
    front_length_cm := jsOrNull s.front_length_cm
    back_length_cm := jsOrNull s.back_length_cm
    waist_cm := jsOrNull s.waist_cm
    hip_cm := jsOrNull s.hip_cm
    inseam_cm := jsOrNull s.inseam_cm
    thigh_width_cm := jsOrNull s.thigh_width_cm
    size_us := jsOrNull s.size_us
    size_eu := jsOrNull s.size_eu
    foot_length_cm := jsOrNull s.foot_length_cm
    foot_width_cm := jsOrNull s.foot_width_cm
    belt_length_cm := jsOrNull s.belt_length_cm
    belt_width_cm := jsOrNull s.belt_width_cm }

/-- Embeds `saveSizes` of `src/pages/Inventory.tsx`: delete the product's
existing `product_sizes` rows, then insert the new list with every
measurement passed through `|| null` (the empty-list insert guard of the
source is the degenerate empty append). -/
def saveSizes (table : List SizeRow) (pid : String) (sizes : List ProductSize) :
    List SizeRow :=
  let remaining := table.filter (fun r => r.product_id != pid)
  remaining ++ sizes.map (fun s => { product_id := pid, row := coerceSize s })

/-- Embeds `loadSizes` of `src/pages/Inventory.tsx`: select the rows of the
product. -/
def loadSizes (table : List SizeRow) (pid : String) : List ProductSize :=
  (table.filter (fun r => r.product_id == pid)).map (fun r => r.row)

/-- States that no measurement field of a size holds the value 0 (the one
value the JS `|| null` idiom silently drops). -/
def noZeroFields (s : ProductSize) : Prop :=
  s.chest_cm ≠ some 0 ∧ s.shoulder_width_cm ≠ some 0 ∧ s.sleeve_length_cm ≠ some 0 ∧
  s.front_length_cm ≠ some 0 ∧ s.back_length_cm ≠ some 0 ∧ s.waist_cm ≠ some 0 ∧
  s.hip_cm ≠ some 0 ∧ s.inseam_cm ≠ some 0 ∧ s.thigh_width_cm ≠ some 0 ∧
  s.size_us ≠ some 0 ∧ s.size_eu ≠ some 0 ∧ s.foot_length_cm ≠ some 0 ∧
  s.foot_width_cm ≠ some 0 ∧ s.belt_length_cm ≠ some 0 ∧ s.belt_width_cm ≠ some 0

instance (s : ProductSize) : Decidable (noZeroFields s) := by
  unfold noZeroFields
  infer_instance

/-- Duplicate probe of `handleAdd` in `SizeManager.tsx`, with the running
index of the `.some((s, idx) => ...)` callback made explicit: a hit is an
entry whose lowercased name equals the lowercased form name at an index
other than the one being edited. -/
def dupCheckAux (name : String) (editing : Option Nat) : Nat → List ProductSize → Bool
  | _, [] => false
  | i, s :: rest =>
    (jsToLower s.size_name == jsToLower name && some i != editing) ||
      dupCheckAux name editing (i + 1) rest

/-- Outcome of a SizeManager mutation: either a rejection toast (the list is
left untouched because `onSizesChange` is never called) or the new list. -/
inductive SizeListUpdate where
  | rejected (message : String)
  | changed (sizes : List ProductSize)
deriving DecidableEq

/-- Embeds `handleAdd` of `SizeManager.tsx`: reject a blank name, reject a
case-insensitive duplicate of a different entry, otherwise overwrite the
edited index or append the new size. -/
def handleAdd (sizes : List ProductSize) (editingIndex : Option Nat)
    (formData : ProductSize) : SizeListUpdate :=
  if jsTrim formData.size_name = "" then .rejected "Size name is required"
  else if dupCheckAux formData.size_name editingIndex 0 sizes then
    .rejected "Size already exists"
  else
    match editingIndex with
    | some i => .changed (sizes.set i formData)
    | none => .changed (sizes ++ [formData])

/-- Embeds `handleDelete` of `SizeManager.tsx`:
`sizes.filter((_, i) => i !== index)`. -/
def handleDelete (sizes : List ProductSize) (index : Nat) : List ProductSize :=
  sizes.eraseIdx index

/-- The size list the component ends up holding after an update outcome. -/
def applyUpdate (sizes : List ProductSize) : SizeListUpdate → List ProductSize
  | .rejected _ => sizes
  | .changed l => l

/-- The SizeManager invariant: no two entries share a lowercased size name. -/
def uniqueSizeNames (sizes : List ProductSize) : Prop :=
  (sizes.map (fun s => jsToLower s.size_name)).Nodup

instance (sizes : List ProductSize) : Decidable (uniqueSizeNames sizes) := by
  unfold uniqueSizeNames
  infer_instance

/-! ## Location deletion cascade of `src/pages/Stores.tsx` (claim C7) -/

/-- An order row as the cascade sees it. -/
structure OrderDbRow where
  id : String
  pickup_location_id : Option String
deriving DecidableEq

/-- A profile row as the cascade sees it. -/
structure ProfileDbRow where
  id : String
  assigned_location_id : Option String
deriving DecidableEq

/-- A location row. -/
structure LocationDbRow where
  id : String
  name : String
deriving DecidableEq

/-- The backend tables touched by `handleDeleteLocation`. -/
structure DbState where
  orders : List OrderDbRow
  inventory : List InvRow
  profiles : List ProfileDbRow
  locations : List LocationDbRow
deriving DecidableEq

/-- The four cascade steps of `handleDeleteLocation`, in source order; each
has its own distinct error surface in the code
("Failed to clear orders/inventory/profiles: ..." and the delete error). -/
inductive CascadeStep where
  | clearOrders
  | clearInventory
  | clearProfiles
  | deleteLocation
deriving DecidableEq

/-- The fixed prefix of the error message toasted for each failing step. -/
def cascadeErrorMessage : CascadeStep → String
  | .clearOrders => "Failed to clear orders"
  | .clearInventory => "Failed to clear inventory"
  | .clearProfiles => "Failed to clear profiles"
  | .deleteLocation => "Failed to delete location"

/-- Step 1: `orders.update({pickup_location_id: null}).eq("pickup_location_id", loc)`. -/
def clearOrderPickup (st : DbState) (locId : String) : DbState :=
  { st with orders := st.orders.map (fun o =>
      if o.pickup_location_id == some locId then { o with pickup_location_id := none } else o) }

/-- Step 2: `inventory.delete().eq("location_id", loc)`. -/
def clearLocationInventory (st : DbState) (locId : String) : DbState :=
  { st with inventory := st.inventory.filter (fun r => r.location_id != locId) }

/-- Step 3: `profiles.update({assigned_location_id: null}).eq("assigned_location_id", loc)`. -/
def clearProfileAssignment (st : DbState) (locId : String) : DbState :=
  { st with profiles := st.profiles.map (fun p =>
      if p.assigned_location_id == some locId then { p with assigned_location_id := none } else p) }

/-- Step 4: `locations.delete().eq("id", loc)`. -/
def removeLocation (st : DbState) (locId : String) : DbState :=
  { st with locations := st.locations.filter (fun l => l.id != locId) }

/-- Embeds `handleDeleteLocation` of `src/pages/Stores.tsx`: the four steps
run strictly in order; a failing step (verdicts `f1..f4`, true = the backend
rejected that call) throws, which aborts the remaining steps, keeps every
state change already committed, and surfaces the failing step's error; only
a full pass deletes the location row. -/
def handleDeleteLocation (st : DbState) (locId : String) (f1 f2 f3 f4 : Bool) :
    DbState × Option CascadeStep :=
  if f1 then (st, some .clearOrders)
  else
    let st1 := clearOrderPickup st locId
    if f2 then (st1, some .clearInventory)
    else
      let st2 := clearLocationInventory st1 locId
      if f3 then (st2, some .clearProfiles)
      else
        let st3 := clearProfileAssignment st2 locId
        if f4 then (st3, some .deleteLocation)
        else (removeLocation st3 locId, none)

/-! ## Concrete sample data used by witnesses and counterexamples -/

/-- A size with no measurements, used to build concrete instances. -/
def plainSize (name : String) : ProductSize :=
  { size_name := name }

/-- A concrete inventory row. -/
def sampleInvRow : InvRow :=
  { product_id := "p1", location_id := "loc-1", size_name := none,
    quantity := 3, price := 100 }

/-- A size whose chest measurement is the explicit value 0. -/
def zeroChestSize : ProductSize :=
  { size_name := "M", chest_cm := some 0 }

end FashionAdmin

/-!
## Theorems

The claims of the specification, settled against the embedded code.
-/

namespace FashionAdmin

/-! ### Helper lemmas -/

/-- JS `v || null` is the identity except at the falsy value 0. -/
theorem jsOrNull_eq_self {v : Option Int} (h : v ≠ some 0) : jsOrNull v = v := by
  cases v with
  | none => rfl
  | some x =>
    have hx : x ≠ 0 := fun hh => h (by rw [hh])
    simp [jsOrNull, hx]


/-- A failed duplicate probe bounds every entry away from the form name,
except for the slot being edited. -/
theorem dupCheckAux_false_get {name : String} {editing : Option Nat} :
    ∀ (sizes : List ProductSize) (n : Nat),
      dupCheckAux name editing n sizes = false →
      ∀ (j : Nat) (hj : j < sizes.length), editing ≠ some (n + j) →
        jsToLower (sizes.get ⟨j, hj⟩).size_name ≠ jsToLower name := by
  intro sizes
  induction sizes with
  | nil => intro n _ j hj; exact absurd hj (by simp)
  | cons a t ih =>
    intro n h j hj hne
    rw [dupCheckAux, Bool.or_eq_false_iff] at h
    obtain ⟨hhead, htail⟩ := h
    cases j with
    | zero =>
      have hne0 : editing ≠ some n := by simpa using hne
      have hbne : (some n != editing) = true := bne_iff_ne.mpr (Ne.symm hne0)
      rw [hbne, Bool.and_true] at hhead
      exact beq_eq_false_iff_ne.mp hhead
    | succ j' =>
      have hlt : j' < t.length := by
        simp only [List.length_cons] at hj
        omega
      have hne' : editing ≠ some (n + 1 + j') := by
        intro hh
        exact hne (by rw [show n + (j' + 1) = n + 1 + j' by omega]; exact hh)
      exact ih (n + 1) htail j' hlt hne'

/-- Setting a slot of a duplicate-free list keeps it duplicate-free when the
new value differs from every entry outside that slot (the slot itself may
keep its old value, which `List.Nodup.set` cannot handle). -/
theorem nodup_set_of_ne_outside {α : Type} :
    ∀ (l : List α) (i : Nat) (x : α), l.Nodup →
      (∀ (j : Nat) (hj : j < l.length), j ≠ i → l.get ⟨j, hj⟩ ≠ x) →
      (l.set i x).Nodup := by
  intro l
  induction l with
  | nil => intro i x _ _; simp
  | cons a t ih =>
    intro i x hnd hx
    rw [List.nodup_cons] at hnd
    obtain ⟨hmem, hndt⟩ := hnd
    cases i with
    | zero =>
      rw [List.set_cons_zero, List.nodup_cons]
      refine ⟨?_, hndt⟩
      intro hxt
      obtain ⟨⟨k, hk⟩, hget⟩ := List.mem_iff_get.mp hxt
      exact hx (k + 1) (by simp only [List.length_cons]; omega) (by omega) hget
    | succ i' =>
      rw [List.set_cons_succ, List.nodup_cons]
      constructor
      · intro hmem'
        rcases List.mem_or_eq_of_mem_set hmem' with hmt | hax
        · exact hmem hmt
        · exact hx 0 (by simp) (by omega) hax
      · refine ih i' x hndt ?_
        intro j hj hji
        exact hx (j + 1) (by simp only [List.length_cons]; omega) (by omega)

/-! ### Claim theorems -/

/-- C9: `detectProductCategory` performs case-insensitive substring matching
of the tag set against a fixed ordered rule table (shirts, pants, shoes,
belts, dresses, jackets, perfumes), first match wins, `"generic"` when no
rule matches; in particular the three scenario inputs evaluate to
`"shoes"`, `"belts"` and `"generic"`. -/
theorem detectProductCategory_follows_rule_table :
    (∀ categories : List String,
       detectProductCategory categories =
         if categories.isEmpty then "generic"
         else firstMatchCategory (jsToLower (jsJoinSpace categories)) categoryRuleTable) ∧
    detectProductCategory ["Running Sneakers"] = "shoes" ∧
    detectProductCategory ["Leather Belt", "Accessories"] = "belts" ∧
    detectProductCategory ["Vintage Poster"] = "generic" := by
  refine ⟨fun categories => ?_, by decide, by decide, by decide⟩
  unfold detectProductCategory categoryRuleTable
  by_cases h : categories.isEmpty <;>
    simp [h, firstMatchCategory, or_assoc]

/-- C1 counterexample: the Orders pages do not offer exactly the section 4.3
table transitions.  A paid courier order gets a "Mark as Ready" action
writing `ready` on `src/pages/Orders.tsx` where the table says `packed`, and
the revised Orders page offers a `ready` write for the pair
(packed, warehouse_pickup), which is not in the table at all. -/
theorem ordersAction_ne_specTransition :
    ordersLegacyAction "paid" = some "ready" ∧
    specTransition "paid" "courier" = some "packed" ∧
    ordersLegacyAction "paid" ≠ specTransition "paid" "courier" ∧
    renderActionWrite "packed" "warehouse_pickup" = some "ready" ∧
    specTransition "packed" "warehouse_pickup" = none := by
  refine ⟨by decide, by decide, by decide, by decide, by decide⟩

/-- C1 amended: `src/pages/Orders.tsx` offers exactly one status-changing
action, "Mark as Ready" writing `ready`, whenever the status is outside
{ready, delivered}, ignoring fulfillment_type; the revised Orders page
offers paid→packed for any fulfillment type, packed→transit for courier,
packed→ready for every non-courier fulfillment type, ready→collected for
any fulfillment type, and nothing for transit or the terminal statuses;
restricted to fulfillment_type = pickup the revised page agrees with the
section 4.3 table on every status. -/
theorem ordersAction_characterization :
    (∀ status : String,
       ordersLegacyAction status =
         if status = "ready" ∨ status = "delivered" then none else some "ready") ∧
    (∀ status fulfillmentType : String,
       renderActionWrite status fulfillmentType =
         if status = "paid" then some "packed"
         else if status = "packed" then
           (if fulfillmentType = "courier" then some "transit" else some "ready")
         else if status = "ready" then some "collected"
         else none) ∧
    (∀ status : String,
       renderActionWrite status "pickup" = specTransition status "pickup") := by
  refine ⟨fun status => ?_, fun status fulfillmentType => ?_, fun status => ?_⟩
  · unfold ordersLegacyAction
    by_cases h1 : status = "ready" <;> by_cases h2 : status = "delivered" <;>
      simp [h1, h2]
  · unfold renderActionWrite
    split_ifs <;> simp_all
  · unfold renderActionWrite specTransition
    split_ifs <;> simp_all

/-- C6: a failing driver task write on the Logistics page restores the task
list to its exact pre-write snapshot, raises the error toast and not the
success toast, and exactly one write is attempted (no silent retry) in the
failure branch just as in the success branch. -/
theorem completeTask_failure_rolls_back :
    ∀ (tasks : List OrderRec) (task : OrderRec),
      (handleCompleteTask tasks task false).tasks = tasks ∧
      (handleCompleteTask tasks task false).errorToast = true ∧
      (handleCompleteTask tasks task false).successToast = false ∧
      (handleCompleteTask tasks task false).writes = [(task.id, newStatusFor task)] ∧
      (handleCompleteTask tasks task true).writes = [(task.id, newStatusFor task)] := by
  intro tasks task
  exact ⟨rfl, rfl, rfl, rfl, rfl⟩

/-- C7: location deletion cascades in the fixed order orders → inventory →
profiles → location row; a failure at any step aborts there, keeps the
mutations already committed, and surfaces an error naming that step (the
four step messages are pairwise distinct). -/
theorem deleteLocation_cascade_order :
    ∀ (st : DbState) (locId : String) (f2 f3 f4 : Bool),
      handleDeleteLocation st locId true f2 f3 f4 = (st, some .clearOrders) ∧
      handleDeleteLocation st locId false true f3 f4 =
        (clearOrderPickup st locId, some .clearInventory) ∧
      handleDeleteLocation st locId false false true f4 =
        (clearLocationInventory (clearOrderPickup st locId) locId,
          some .clearProfiles) ∧
      handleDeleteLocation st locId false false false true =
        (clearProfileAssignment
          (clearLocationInventory (clearOrderPickup st locId) locId) locId,
          some .deleteLocation) ∧
      handleDeleteLocation st locId false false false false =
        (removeLocation (clearProfileAssignment
          (clearLocationInventory (clearOrderPickup st locId) locId) locId) locId,
          none) ∧
      Function.Injective cascadeErrorMessage := by
  intro st locId f2 f3 f4
  refine ⟨rfl, rfl, rfl, rfl, rfl, ?_⟩
  intro a b hab
  cases a <;> cases b <;> first | rfl | (exact absurd hab (by decide))

/-- C2: among the orders fetched for the driver run sheet, an order appears
in the visible task list exactly when it is a courier order in `transit` or
a pickup order in `packed`; equivalently, the whole pipeline keeps exactly
the orders satisfying that disjunction. -/
theorem logistics_visible_tasks :
    (∀ (orders : List OrderRec) (o : OrderRec),
       o ∈ loadLogistics orders ↔
         o ∈ logisticsFetch orders ∧
           ((o.fulfillment_type = "courier" ∧ o.status = "transit") ∨
            (o.fulfillment_type = "pickup" ∧ o.status = "packed"))) ∧
    (∀ orders : List OrderRec,
       loadLogistics orders = orders.filter (fun o =>
         (o.fulfillment_type == "courier" && o.status == "transit") ||
         (o.fulfillment_type == "pickup" && o.status == "packed"))) := by
  have hfilter : ∀ o : OrderRec,
      logisticsTaskFilter o = true ↔
        ((o.fulfillment_type = "courier" ∧ o.status = "transit") ∨
         (o.fulfillment_type = "pickup" ∧ o.status = "packed")) := by
    intro o
    unfold logisticsTaskFilter
    by_cases h1 : o.fulfillment_type = "courier" <;>
      by_cases h2 : o.fulfillment_type = "pickup" <;>
        simp_all
  constructor
  · intro orders o
    unfold loadLogistics
    rw [List.mem_filter, hfilter]
  · intro orders
    unfold loadLogistics logisticsFetch
    rw [List.filter_filter]
    refine List.filter_congr ?_
    intro o _
    by_cases h1 : o.fulfillment_type = "courier" <;>
      by_cases h2 : o.fulfillment_type = "pickup" <;>
        by_cases h3 : o.status = "transit" <;>
          by_cases h4 : o.status = "packed" <;>
            simp_all [logisticsTaskFilter]

/-- C8: the location scoping of the Inventory page stock display: with the
manager role (not admin) and assigned location set, exactly the rows of that
location survive the filter — in particular every received row carries that
location id — while the admin role receives every row unchanged. -/
theorem inventory_location_scoping :
    (∀ (locId : String) (rows : List InvRow),
       visibleInventoryRows (isAdminFlag "manager") (some locId) rows =
         rows.filter (fun r => r.location_id == locId)) ∧
    (∀ (assigned : Option String) (rows : List InvRow),
       visibleInventoryRows (isAdminFlag "admin") assigned rows = rows) ∧
    (∀ (locId : String) (rows : List InvRow) (r : InvRow),
       r ∈ visibleInventoryRows (isAdminFlag "manager") (some locId) rows →
         r.location_id = locId) := by
  have hmgr : isAdminFlag "manager" = false := by decide
  have hadm : isAdminFlag "admin" = true := by decide
  have part1 : ∀ (locId : String) (rows : List InvRow),
      visibleInventoryRows (isAdminFlag "manager") (some locId) rows =
        rows.filter (fun r => r.location_id == locId) := by
    intro locId rows
    unfold visibleInventoryRows
    rw [hmgr]
    refine List.filter_congr ?_
    intro r _
    by_cases h : r.location_id = locId <;> simp [h]
  refine ⟨part1, ?_, ?_⟩
  · intro assigned rows
    unfold visibleInventoryRows
    rw [hadm]
    simp
  · intro locId rows r hr
    rw [part1] at hr
    exact beq_iff_eq.mp (List.mem_filter.mp hr).2

/-- C8 witness: a concrete manager-scoped row is received and does carry the
assigned location id. -/
theorem inventory_location_scoping_witness :
    sampleInvRow ∈
      visibleInventoryRows (isAdminFlag "manager") (some "loc-1") [sampleInvRow] ∧
    sampleInvRow.location_id = "loc-1" :=
  ⟨by decide,
   inventory_location_scoping.2.2 "loc-1" [sampleInvRow] sampleInvRow (by decide)⟩

/-- C3: with a location selected, submitting quantity exactly 0 deletes the
(product, location, size) row — a subsequent read of that triple is empty —
while any nonzero quantity is an upsert keyed on
(product_id, location_id, size_name). -/
theorem updateStock_zero_deletes_row :
    ∀ (table : List InvRow) (pid lid sizeName : String) (price : Int),
      lid ≠ "" →
        readInventory (handleUpdateStock table pid lid sizeName 0 price) pid lid
            (formSize sizeName) = [] ∧
        (∀ qty : Int, qty ≠ 0 →
           handleUpdateStock table pid lid sizeName qty price =
             upsertInventory table
               { product_id := pid, location_id := lid,
                 size_name := formSize sizeName, quantity := qty, price := price }) := by
  intro table pid lid sizeName price hlid
  constructor
  · unfold handleUpdateStock
    rw [if_neg hlid, if_pos rfl]
    unfold readInventory deleteInventory
    rw [List.filter_filter]
    rw [List.filter_eq_nil_iff]
    intro r _
    cases h : sameInvKey r pid lid (formSize sizeName) <;> simp [h]
  · intro qty hqty
    unfold handleUpdateStock
    simp [hlid, hqty]

/-- C3 witness: deleting a concretely stocked triple leaves no entry. -/
theorem updateStock_zero_deletes_row_witness :
    ("loc-1" : String) ≠ "" ∧
    readInventory (handleUpdateStock [sampleInvRow] "p1" "loc-1" "" 0 100)
      "p1" "loc-1" (formSize "") = [] :=
  ⟨by decide,
   (updateStock_zero_deletes_row [sampleInvRow] "p1" "loc-1" "" 100 (by decide)).1⟩

/-- C4: after any stock mutation through the stock-update path (UI snapshot
in sync with the stored flag), the product's archived flag ends equal to
"the product has no inventory rows left across all locations": emptied
products end archived, products that gained a row end unarchived. -/
theorem stock_update_archive_flag :
    ∀ (table : List InvRow) (pid lid sizeName : String) (qty price : Int)
      (stored : Bool),
      lid ≠ "" →
        (handleUpdateStockArchived table pid lid sizeName qty price stored stored).2 =
          (productRowsFor
            (handleUpdateStockArchived table pid lid sizeName qty price stored stored).1
            pid).isEmpty := by
  intro table pid lid sizeName qty price stored hlid
  unfold handleUpdateStockArchived
  simp only [hlid, if_false]
  unfold archiveCheck
  by_cases h : stored =
      (productRowsFor (handleUpdateStock table pid lid sizeName qty price) pid).isEmpty <;>
    cases hc : (productRowsFor (handleUpdateStock table pid lid sizeName qty price) pid).isEmpty <;>
      simp_all

/-- C4 witness: zeroing the only stocked row of a concrete product flips its
archive flag to true, matching the emptied inventory. -/
theorem stock_update_archive_flag_witness :
    ("loc-1" : String) ≠ "" ∧
    (handleUpdateStockArchived [sampleInvRow] "p1" "loc-1" "" 0 100 false false).2 =
      (productRowsFor
        (handleUpdateStockArchived [sampleInvRow] "p1" "loc-1" "" 0 100 false false).1
        "p1").isEmpty :=
  ⟨by decide,
   stock_update_archive_flag [sampleInvRow] "p1" "loc-1" "" 0 100 false (by decide)⟩

/-- C5 counterexample: a size saved with the non-null measurement
`chest_cm = 0` reloads with `chest_cm = null` — the JS `value || null`
idiom in `saveSizes` silently coerces the value 0 to null, so the
save/load round trip is not the identity on non-null fields. -/
theorem saveSizes_drops_zero_measurement :
    zeroChestSize.chest_cm = some 0 ∧
    loadSizes (saveSizes [] "p1" [zeroChestSize]) "p1" =
      [{ zeroChestSize with chest_cm := none }] ∧
    loadSizes (saveSizes [] "p1" [zeroChestSize]) "p1" ≠ [zeroChestSize] := by
  refine ⟨rfl, by decide, by decide⟩

/-- C5 amended: saving then reloading a product's size list returns each
size with every measurement passed through the `value || null` coercion
(null and undefined stay null, the value 0 becomes null); whenever no
measurement field holds the value 0, the round trip preserves every size
exactly — no field is dropped and no other value is changed. -/
theorem saveSizes_loadSizes_roundtrip :
    (∀ (table : List SizeRow) (pid : String) (sizes : List ProductSize),
       loadSizes (saveSizes table pid sizes) pid = sizes.map coerceSize) ∧
    (∀ s : ProductSize, noZeroFields s → coerceSize s = s) := by
  constructor
  · intro table pid sizes
    unfold loadSizes saveSizes
    rw [List.filter_append]
    have h1 : (table.filter (fun r => r.product_id != pid)).filter
        (fun r => r.product_id == pid) = [] := by
      rw [List.filter_filter, List.filter_eq_nil_iff]
      intro r _
      simp only [Bool.and_eq_true, beq_iff_eq, bne_iff_ne]
      rintro ⟨he, hne⟩
      exact hne he
    have h2 : (sizes.map (fun s => ({ product_id := pid, row := coerceSize s } : SizeRow))).filter
        (fun r => r.product_id == pid) =
        sizes.map (fun s => ({ product_id := pid, row := coerceSize s } : SizeRow)) := by
      rw [List.filter_eq_self]
      intro r hr
      obtain ⟨s, _, rfl⟩ := List.mem_map.mp hr
      simp
    rw [h1, h2, List.nil_append, List.map_map]
    rfl
  · intro s h
    obtain ⟨h1, h2, h3, h4, h5, h6, h7, h8, h9, h10, h11, h12, h13, h14, h15⟩ := h
    unfold coerceSize
    rw [jsOrNull_eq_self h1, jsOrNull_eq_self h2, jsOrNull_eq_self h3,
      jsOrNull_eq_self h4, jsOrNull_eq_self h5, jsOrNull_eq_self h6,
      jsOrNull_eq_self h7, jsOrNull_eq_self h8, jsOrNull_eq_self h9,
      jsOrNull_eq_self h10, jsOrNull_eq_self h11, jsOrNull_eq_self h12,
      jsOrNull_eq_self h13, jsOrNull_eq_self h14, jsOrNull_eq_self h15]

/-- C5 witness: a concrete zero-free size round-trips unchanged. -/
theorem saveSizes_loadSizes_roundtrip_witness :
    noZeroFields { plainSize "L" with chest_cm := some 50 } ∧
    coerceSize { plainSize "L" with chest_cm := some 50 } =
      { plainSize "L" with chest_cm := some 50 } :=
  ⟨by decide,
   saveSizes_loadSizes_roundtrip.2 { plainSize "L" with chest_cm := some 50 } (by decide)⟩

/-- C10: the SizeManager size list never holds two entries whose names are
equal up to letter case: an add or edit whose name case-insensitively
duplicates a different existing entry is rejected with the "Size already
exists" error (so the list is unchanged), and every add, edit and delete
outcome preserves the case-insensitive uniqueness invariant. -/
theorem sizeManager_names_unique :
    ∀ (sizes : List ProductSize) (editingIndex : Option Nat)
      (formData : ProductSize) (index : Nat),
      uniqueSizeNames sizes →
        (jsTrim formData.size_name ≠ "" →
          dupCheckAux formData.size_name editingIndex 0 sizes = true →
            handleAdd sizes editingIndex formData = .rejected "Size already exists") ∧
        uniqueSizeNames (applyUpdate sizes (handleAdd sizes editingIndex formData)) ∧
        uniqueSizeNames (handleDelete sizes index) := by
  intro sizes editing form index hnd
  refine ⟨?_, ?_, ?_⟩
  · intro hname hdup
    unfold handleAdd
    rw [if_neg hname, if_pos hdup]
  · unfold handleAdd
    by_cases h1 : jsTrim form.size_name = ""
    · rw [if_pos h1]
      exact hnd
    · rw [if_neg h1]
      by_cases h2 : dupCheckAux form.size_name editing 0 sizes = true
      · rw [if_pos h2]
        exact hnd
      · have h2f : dupCheckAux form.size_name editing 0 sizes = false := by
          cases hc : dupCheckAux form.size_name editing 0 sizes
          · rfl
          · exact absurd hc h2
        rw [if_neg h2]
        cases editing with
        | none =>
          unfold applyUpdate uniqueSizeNames
          rw [List.map_append, List.nodup_append]
          refine ⟨hnd, by simp, ?_⟩
          intro a ha hb
          obtain ⟨s, hs, rfl⟩ := List.mem_map.mp ha
          have hb' : jsToLower s.size_name = jsToLower form.size_name := by
            simpa using hb
          obtain ⟨⟨k, hk⟩, hget⟩ := List.mem_iff_get.mp hs
          have hne := dupCheckAux_false_get sizes 0 h2f k hk (by simp)
          rw [hget] at hne
          exact hne hb'
        | some i =>
          unfold applyUpdate uniqueSizeNames
          rw [List.map_set]
          refine nodup_set_of_ne_outside _ i _ hnd ?_
          intro j hj hji
          have hj' : j < sizes.length := by simpa using hj
          simp only [List.get_map]
          refine dupCheckAux_false_get sizes 0 h2f j hj' ?_
          intro hh
          have hij : i = j := by simpa using hh
          exact hji hij.symm
  · unfold handleDelete uniqueSizeNames
    exact List.Nodup.sublist ((List.eraseIdx_sublist sizes index).map _) hnd

/-- C10 witness: a concrete duplicate-free list stays duplicate-free after
appending a fresh size, and a case-insensitive duplicate is rejected. -/
theorem sizeManager_names_unique_witness :
    uniqueSizeNames [plainSize "M"] ∧
    jsTrim (plainSize "m").size_name ≠ "" ∧
    dupCheckAux (plainSize "m").size_name none 0 [plainSize "M"] = true ∧
    handleAdd [plainSize "M"] none (plainSize "m") =
      .rejected "Size already exists" ∧
    uniqueSizeNames
      (applyUpdate [plainSize "M"] (handleAdd [plainSize "M"] none (plainSize "XL"))) :=
  ⟨by decide, by decide, by decide,
   (sizeManager_names_unique [plainSize "M"] none (plainSize "m") 0 (by decide)).1
     (by decide) (by decide),
   (sizeManager_names_unique [plainSize "M"] none (plainSize "XL") 0 (by decide)).2.1⟩
